import Mathlib

/-!
# Verification of `pyramid_session_redis` utility core

A shallow embedding, in Lean 4, of the utility core of the
`pyramid_session_redis` repository (`pyramid_session_redis/util.py`, with
its predecessor `pyramid_redis_sessions/util.py` where relevant):

* the session payload codec (`encode_session_payload`,
  `decode_session_payload`, `empty_session_payload`);
* the identifier allocator (`_insert_session_id_if_unique`,
  `create_unique_session_id`), with the Redis store modelled as a
  per-attempt snapshot of a key/value map plus a watch-conflict oracle;
* the settings parser (`_parse_settings`) over string-valued settings;
* the default session-id generator (`_generate_session_id`), whose
  `token_urlsafe` dependency lives in a compat module and is modelled
  from the specification.

Machine integers are modelled as `Int` (Python ints are unbounded);
Python `None`-able ints as `Option Int`; Python exceptions as `Except`.
-/

namespace PyramidSessionRedis

instance {ε α : Type} [DecidableEq ε] [DecidableEq α] :
    DecidableEq (Except ε α) := fun x y =>
  match x, y with
  | Except.ok a, Except.ok b =>
    if h : a = b then isTrue (by simp [h]) else isFalse (by simp [h])
  | Except.error a, Except.error b =>
    if h : a = b then isTrue (by simp [h]) else isFalse (by simp [h])
  | Except.ok _, Except.error _ => isFalse (by simp)
  | Except.error _, Except.ok _ => isFalse (by simp)

/-- Python truthiness of an optional integer: `None` and `0` are falsy,
every other integer is truthy.  This is the test performed by
`if timeout:`, `if expires:` and `if not timeout_trigger:` in the source. -/
def pyTruthy : Option Int → Bool
  | none => false
  | some n => n != 0

/-- `SESSION_API_VERSION` from `pyramid_session_redis/util.py`: the
schema tag stored in every session payload. -/
def SESSION_API_VERSION : Int := 1

/-- The wire mapping built by the codec: keys `m`, `c`, `v` always
present, keys `t` and `x` optional (`none` models the key being absent
from the Python dict; the codec never stores `None` under a key). -/
structure Payload (α : Type) where
  m : α
  c : Int
  v : Int
  t : Option Int
  x : Option Int
  deriving Repr, DecidableEq

/-- The keyword mapping returned by `decode_session_payload`:
`timeout` and `expires` are fetched with `.get` and are `None` when the
key is absent. -/
structure DecodedPayload (α : Type) where
  managed_dict : α
  created : Int
  version : Int
  timeout : Option Int
  expires : Option Int
  deriving Repr, DecidableEq

/-- `encode_session_payload` from `pyramid_session_redis/util.py`
(lines 144–163).  `time_now` stands for the `int_time()` clock read made
inside the function.  Python evaluates `expires - timeout_trigger` when
`timeout_trigger` is truthy; if `expires` is `None` this raises
`TypeError`, modelled as `Except.error ()`. -/
def encode_session_payload (managed_dict : α) (created : Int)
    (timeout : Option Int) (expires : Option Int)
    (timeout_trigger : Option Int) (python_expires : Bool)
    (time_now : Int) : Except Unit (Payload α) :=
  let data : Payload α :=
    { m := managed_dict, c := created, v := SESSION_API_VERSION,
      t := none, x := none }
  -- `if expires and python_expires: data["x"] = expires`
  let data : Payload α :=
    if pyTruthy expires && python_expires then { data with x := expires }
    else data
  -- `if timeout:`
  match timeout with
  | none => Except.ok data
  | some tval =>
    if tval = 0 then Except.ok data
    else
      -- `data["t"] = timeout`
      let data : Payload α := { data with t := some tval }
      if python_expires then
        -- `if not timeout_trigger or (time_now >= (expires - timeout_trigger)):`
        match timeout_trigger with
        | none => Except.ok { data with x := some (time_now + tval) }
        | some tg =>
          if tg = 0 then Except.ok { data with x := some (time_now + tval) }
          else
            match expires with
            | none => Except.error ()  -- TypeError: None - int
            | some e =>
              if time_now ≥ e - tg then
                Except.ok { data with x := some (time_now + tval) }
              else
                Except.ok data
      else Except.ok data

/-- `decode_session_payload` from `pyramid_session_redis/util.py`
(lines 166–176). -/
def decode_session_payload (payload : Payload α) : DecodedPayload α :=
  { managed_dict := payload.m
    created := payload.c
    version := payload.v
    timeout := payload.t
    expires := payload.x }

/-- The managed dict of a fresh session is the empty Python dict `{}`;
sessions store string keys with serializable values. -/
def ManagedDict : Type := List (String × String)

instance : DecidableEq ManagedDict := by
  unfold ManagedDict; infer_instance

/-- `empty_session_payload` from `pyramid_session_redis/util.py`
(lines 128–141).  `time_now` stands for the `int_time()` clock read
(the `created` stamp). -/
def empty_session_payload (timeout : Option Int) (python_expires : Bool)
    (time_now : Int) : Payload ManagedDict :=
  let data : Payload ManagedDict :=
    { m := ([] : List (String × String)), c := time_now,
      v := SESSION_API_VERSION, t := none, x := none }
  match timeout with
  | none => data
  | some tval =>
    if tval = 0 then data
    else
      let data := { data with t := some tval }
      if python_expires then { data with x := some (time_now + tval) }
      else data

/-! ## Identifier allocator

`_insert_session_id_if_unique` and `create_unique_session_id` from
`pyramid_session_redis/util.py` (lines 179–253).  The Redis store is a
map from keys to serialized values; concurrent activity is modelled by
giving each loop iteration its own store snapshot (the state the
`pipe.get` observes under the watch) and a watch-conflict oracle (does
`pipe.execute` raise `WatchError` because the watched key mutated
between the read and the commit).  The serialized payload is opaque
(`V`). -/

/-- A Redis keyspace: keys to optionally present serialized values. -/
def Store (V : Type) : Type := String → Option V

/-- The write command queued in the `pipe.multi()` block of
`_insert_session_id_if_unique`: either `setex` (value and TTL in one
atomic command) or a plain `set` (no TTL). -/
inductive RedisWrite (V : Type) where
  | setex (key : String) (ttl : Int) (value : V)
  | set (key : String) (value : V)
  deriving Repr, DecidableEq

/-- Effect of one write command on the keyspace (TTL bookkeeping aside,
both commands store the value under the key). -/
def applyWrite (store : Store V) : RedisWrite V → Store V
  | RedisWrite.setex k _ v => fun key => if key = k then some v else store key
  | RedisWrite.set k v => fun key => if key = k then some v else store key

/-- Result of one insertion attempt: the returned value (`some id` on
success, `none` on occupied key or `WatchError`), the transaction's
committed write commands, and the store afterwards. -/
structure InsertOutcome (V : Type) where
  result : Option String
  writes : List (RedisWrite V)
  store : Store V

/-- `_insert_session_id_if_unique` from `pyramid_session_redis/util.py`
(lines 179–224), for a given serialized payload `_payload`.
Watch the key, read it; a present value returns `None` with nothing
written; otherwise queue `setex` when `timeout` is truthy and
`set_redis_ttl` is set, else a plain `set`; a `WatchError` at
`pipe.execute` (the `watch_conflict` oracle) discards the queued write
and returns `None`; otherwise the write commits atomically and the
session id is returned. -/
def _insert_session_id_if_unique (redis : Store V) (timeout : Option Int)
    (session_id : String) (_payload : V) (set_redis_ttl : Bool)
    (watch_conflict : Bool) : InsertOutcome V :=
  match redis session_id with
  | some _ => { result := none, writes := [], store := redis }
  | none =>
    let cmd : RedisWrite V :=
      match timeout with
      | some tval =>
        if tval ≠ 0 ∧ set_redis_ttl then RedisWrite.setex session_id tval _payload
        else RedisWrite.set session_id _payload
      | none => RedisWrite.set session_id _payload
    if watch_conflict then { result := none, writes := [], store := redis }
    else
      { result := some session_id, writes := [cmd],
        store := applyWrite redis cmd }

/-- `create_unique_session_id` from `pyramid_session_redis/util.py`
(lines 227–253).  The `while 1` loop is modelled with explicit fuel;
`gen k` is the id produced by the `generator()` call of iteration `k`,
`stores k` the keyspace that iteration observes, `conflict k` whether
its commit raises `WatchError`.  Returns the committed id and the
resulting keyspace, or `none` if the fuel runs out first. -/
def create_unique_session_id (gen : Nat → String) (stores : Nat → Store V)
    (timeout : Option Int) (_payload : V) (set_redis_ttl : Bool)
    (conflict : Nat → Bool) : Nat → Nat → Option (String × Store V)
  | 0, _ => none
  | fuel + 1, k =>
    let attempt :=
      _insert_session_id_if_unique (stores k) timeout (gen k) _payload
        set_redis_ttl (conflict k)
    match attempt.result with
    | some sid => some (sid, attempt.store)
    | none =>
      create_unique_session_id gen stores timeout _payload set_redis_ttl
        conflict fuel (k + 1)

/-! ## Default session-id generator

`_generate_session_id` (lines 55–76) returns `token_urlsafe(48)`.
`token_urlsafe` is imported from the repository's `compat` module, which
is not part of the sources at hand; it is modelled from the spec. -/

/-- The URL-safe base64 alphabet (RFC 4648 §5): `A`–`Z`, `a`–`z`,
`0`–`9`, `-`, `_`. -/
def b64urlAlphabet : List Char :=
  ("ABCDEFGHIJKLMNOPQRSTUVWXYZabcdefghijklmnopqrstuvwxyz0123456789-_").toList

/-- Character for a six-bit group (out-of-range indices never arise for
six-bit inputs). -/
def b64urlChar (n : Nat) : Char := b64urlAlphabet.getD n 'A'

/-- Split a byte sequence into six-bit groups, big-endian within each
three-byte block, as base64 does; a trailing block of one or two bytes
yields two or three groups (the positions base64 would pad with `=`). -/
def base64Sextets : List Nat → List Nat
  | [] => []
  | [b1] => [b1 / 4, b1 % 4 * 16]
  | [b1, b2] => [b1 / 4, b1 % 4 * 16 + b2 / 16, b2 % 16 * 4]
  | b1 :: b2 :: b3 :: rest =>
    b1 / 4 :: (b1 % 4 * 16 + b2 / 16) :: (b2 % 16 * 4 + b3 / 64) :: b3 % 64 ::
      base64Sextets rest

/-- Inverse of `base64Sextets` on well-formed group lists: reassembles
the bytes of each block. -/
def base64SextetsDecode : List Nat → List Nat
  | s1 :: s2 :: s3 :: s4 :: rest =>
    (s1 * 4 + s2 / 16) :: (s2 % 16 * 16 + s3 / 4) :: (s3 % 4 * 64 + s4) ::
      base64SextetsDecode rest
  | [s1, s2] => [s1 * 4 + s2 / 16]
  | [s1, s2, s3] => [s1 * 4 + s2 / 16, s2 % 16 * 16 + s3 / 4]
  | _ => []

/-- Modelled from the spec: `token_urlsafe` (imported by
`pyramid_session_redis/util.py` from the repository's `compat` module,
which is not among the sources) returns the URL-safe base64 encoding of
cryptographically strong random bytes with the `=` padding stripped, as
`secrets.token_urlsafe` does.  The random bytes drawn from the CSPRNG
are the explicit argument here. -/
def token_urlsafe (randomBytes : List Nat) : String :=
  String.mk ((base64Sextets randomBytes).map b64urlChar)

/-- `_generate_session_id` from `pyramid_session_redis/util.py`
(lines 55–76): `token_urlsafe(48)`, i.e. the URL-safe encoding of 48
random bytes.  The 48 bytes drawn inside `token_urlsafe` are the
explicit argument. -/
def _generate_session_id (randomBytes : List Nat) : String :=
  token_urlsafe randomBytes

/-! ## Settings parser

`_parse_settings` from `pyramid_session_redis/util.py` (lines 256–310).
Settings are a mapping of string keys to string values (as read from an
ini file); options values after coercion are modelled by `OptVal`.
Python exceptions (`ConfigurationError` from the explicit `raise`
statements, `ValueError` from failing `int()`/`float()` coercions) are
the `Except` error channel. -/

/-- A coerced option value: raw string, coerced int, coerced bool,
Python `None`, coerced float (kept as its literal), or the
`partial(prefixed_id, prefix=...)` generator installed for the `prefix`
convenience setting. -/
inductive OptVal where
  | vstr (s : String)
  | vint (n : Int)
  | vbool (b : Bool)
  | vnone
  | vfloat (s : String)
  | vgen (p : String)
  deriving Repr, DecidableEq

/-- Exceptions `_parse_settings` can raise. -/
inductive ParseError where
  | configurationError (msg : String)
  | valueError
  deriving Repr, DecidableEq

/-- The options dict: insertion-ordered association list with unique
keys (as maintained by `oset`). -/
def Options : Type := List (String × OptVal)

instance : DecidableEq Options := by
  unfold Options; infer_instance

/-- Dict lookup. -/
def oget : Options → String → Option OptVal
  | [], _ => none
  | (k', v) :: rest, k => if k' = k then some v else oget rest k

/-- Dict assignment `options[k] = v`: replace in place or append. -/
def oset : Options → String → OptVal → Options
  | [], k, v => [(k, v)]
  | (k', v') :: rest, k, v =>
    if k' = k then (k, v) :: rest else (k', v') :: oset rest k v

/-- Dict removal `options.pop(k)`. -/
def opop : Options → String → Options
  | [], _ => []
  | (k', v') :: rest, k => if k' = k then rest else (k', v') :: opop rest k

/-- `configs_bool` from `pyramid_session_redis/util.py` (lines 95–104). -/
def configs_bool : List String :=
  ["cookie_secure", "cookie_httponly", "cookie_on_exception",
   "set_redis_ttl", "set_redis_ttl_readheavy", "detect_changes",
   "deserialized_fails_new", "python_expires"]

/-- `configs_int` from `pyramid_session_redis/util.py` (line 106). -/
def configs_int : List String := ["port", "db", "cookie_max_age"]

/-- `configs_int_none` from `pyramid_session_redis/util.py` (line 108). -/
def configs_int_none : List String := ["timeout", "timeout_trigger"]

/-- Split a character list at every occurrence of a separator; always
returns at least one (possibly empty) piece, like Python `str.split`. -/
def splitOnChar (sep : Char) : List Char → List (List Char)
  | [] => [[]]
  | c :: rest =>
    let r := splitOnChar sep rest
    if c = sep then [] :: r
    else
      match r with
      | [] => [[c]]
      | h :: t => (c :: h) :: t

/-- Strip leading and trailing whitespace, as Python `str.strip()` does
(ASCII whitespace suffices for the settings at hand). -/
def trimChars (l : List Char) : List Char :=
  ((l.dropWhile Char.isWhitespace).reverse.dropWhile Char.isWhitespace).reverse

/-- ASCII lowercasing of one character, as `str.lower()` does on the
settings values at hand. -/
def lowerChar (c : Char) : Char :=
  if 'A' ≤ c ∧ c ≤ 'Z' then Char.ofNat (c.toNat + 32) else c

/-- The last dot-separated component of a settings key:
`k.split(".")[-1]`. -/
def lastComponent (k : String) : String :=
  String.mk ((splitOnChar '.' k.toList).getLastD [])

/-- The collection loop of `_parse_settings` (lines 261–268): keep the
settings whose key starts with `"redis.sessions."`, store each value
under the last component of its key (later entries overwrite earlier
ones, as in a dict). -/
def collectOptions (settings : List (String × String)) : Options :=
  settings.foldl
    (fun opts kv =>
      if ("redis.sessions.").toList.isPrefixOf kv.1.toList then
        oset opts (lastComponent kv.1) (OptVal.vstr kv.2)
      else opts)
    []

/-- Python truthiness of an option value (`vfloat`/`vgen` stand for
non-zero objects; neither is ever tested for truth by the parser). -/
def OptVal.truthy : OptVal → Bool
  | OptVal.vstr s => !(s == "")
  | OptVal.vint n => n != 0
  | OptVal.vbool b => b
  | OptVal.vnone => false
  | OptVal.vfloat _ => true
  | OptVal.vgen _ => true

/-- Truthiness of `options.get(k)`: `None` (absent) is falsy. -/
def pyTruthyVal : Option OptVal → Bool
  | none => false
  | some v => v.truthy

/-- The raw string content of an option value (the parser only coerces
values that are still raw strings). -/
def valStr : OptVal → String
  | OptVal.vstr s => s
  | _ => ""

/-- `pyramid.settings.asbool`: `str(s).strip().lower()` is truthy iff
it is one of `t`, `true`, `y`, `yes`, `on`, `1`. -/
def asbool (s : String) : Bool :=
  ["t", "true", "y", "yes", "on", "1"].contains
    (String.mk ((trimChars s.toList).map lowerChar))

/-- Model of CPython `int(str)` on its common format: optional
whitespace, optional sign, one or more decimal digits; anything else
raises `ValueError` (`none`). -/
def pyInt (s : String) : Option Int :=
  let l := trimChars s.toList
  let signed : Int × List Char :=
    match l with
    | '-' :: rest => (-1, rest)
    | '+' :: rest => (1, rest)
    | _ => (1, l)
  if signed.2 ≠ [] ∧ signed.2.all Char.isDigit then
    some (signed.1 *
      (signed.2.foldl (fun acc c => acc * 10 + (c.toNat - 48)) 0 : Nat))
  else none

/-- Python `int(value)` on an option value: strings parse, ints are
identity, bools are 0/1, everything else raises (`None` raises
`TypeError`, also modelled as `none`). -/
def pyIntOfVal : OptVal → Option Int
  | OptVal.vstr s => pyInt s
  | OptVal.vint n => some n
  | OptVal.vbool b => some (if b then 1 else 0)
  | _ => none

/-- Model of CPython `float(str)` acceptance on plain decimal literals:
optional sign, digits with at most one dot and at least one digit. -/
def pyFloatOk (s : String) : Bool :=
  let l := trimChars s.toList
  let body : List Char :=
    match l with
    | '-' :: rest => rest
    | '+' :: rest => rest
    | _ => l
  match splitOnChar '.' body with
  | [a] => decide (a ≠ []) && a.all Char.isDigit
  | [a, b] =>
    (decide (a ≠ []) || decide (b ≠ [])) &&
      a.all Char.isDigit && b.all Char.isDigit
  | _ => false

/-- One step of the `configs_bool` coercion loop (lines 277–279):
`options[b] = asbool(options[b])` when `b` is present. -/
def coerceBoolKey (o : Options) (b : String) : Options :=
  match oget o b with
  | some v => oset o b (OptVal.vbool (asbool (valStr v)))
  | none => o

/-- The `configs_bool` coercion loop. -/
def coerceBools (opts : Options) : Options :=
  configs_bool.foldl coerceBoolKey opts

/-- One step of the `configs_int` coercion loop (lines 282–284):
`options[i] = int(options[i])`, `ValueError` on failure. -/
def coerceIntKey (o : Options) (k : String) : Except ParseError Options :=
  match oget o k with
  | none => Except.ok o
  | some v =>
    match pyIntOfVal v with
    | some n => Except.ok (oset o k (OptVal.vint n))
    | none => Except.error ParseError.valueError

/-- The `configs_int` coercion loop. -/
def coerceInts (o : Options) : Except ParseError Options :=
  configs_int.foldlM coerceIntKey o

/-- One step of the `configs_int_none` loop (lines 287–294): the string
`"None"` becomes `None`; otherwise coerce to int and collapse a zero
result to `None`. -/
def coerceIntNoneKey (o : Options) (k : String) : Except ParseError Options :=
  match oget o k with
  | none => Except.ok o
  | some v =>
    if v = OptVal.vstr "None" then Except.ok (oset o k OptVal.vnone)
    else
      match pyIntOfVal v with
      | some n =>
        Except.ok (oset o k (if n = 0 then OptVal.vnone else OptVal.vint n))
      | none => Except.error ParseError.valueError

/-- The `configs_int_none` coercion loop. -/
def coerceIntNones (o : Options) : Except ParseError Options :=
  configs_int_none.foldlM coerceIntNoneKey o

/-- The `socket_timeout` float coercion (lines 297–298). -/
def coerceFloat (o : Options) : Except ParseError Options :=
  match oget o "socket_timeout" with
  | none => Except.ok o
  | some v =>
    if pyFloatOk (valStr v) then
      Except.ok (oset o "socket_timeout" (OptVal.vfloat (valStr v)))
    else Except.error ParseError.valueError

/-- The credentials check of lines 270–274: raise unless exactly one of
`secret` and `cookie_signer` is truthy. -/
def credsMisconfigured (o : Options) : Bool :=
  (pyTruthyVal (oget o "secret") && pyTruthyVal (oget o "cookie_signer")) ||
    (!pyTruthyVal (oget o "secret") && !pyTruthyVal (oget o "cookie_signer"))

/-- The mutual-exclusion check of lines 301–303: both a `prefix` and an
`id_generator` key are present. -/
def prefixGeneratorConflict (o : Options) : Bool :=
  (oget o "prefix").isSome && (oget o "id_generator").isSome

/-- The `prefix` convenience rewrite of lines 306–308: pop `prefix` and
install `partial(prefixed_id, prefix=prefix)` as `id_generator`. -/
def installPrefixedGenerator (o : Options) : Options :=
  match oget o "prefix" with
  | some v => oset (opop o "prefix") "id_generator" (OptVal.vgen (valStr v))
  | none => o

/-- `_parse_settings` from `pyramid_session_redis/util.py`
(lines 256–310): collect, check credentials, coerce bools, ints,
`int`-or-`None`s and the float, check the `prefix`/`id_generator`
conflict, install the prefixed generator. -/
def _parse_settings (settings : List (String × String)) :
    Except ParseError Options :=
  if credsMisconfigured (collectOptions settings) then
    Except.error (ParseError.configurationError
      "One, and only one, of redis.sessions.secret and redis.sessions.cookie_signer must be provided.")
  else
    match coerceInts (coerceBools (collectOptions settings)) with
    | Except.error e => Except.error e
    | Except.ok o2 =>
      match coerceIntNones o2 with
      | Except.error e => Except.error e
      | Except.ok o3 =>
        match coerceFloat o3 with
        | Except.error e => Except.error e
        | Except.ok o4 =>
          if prefixGeneratorConflict o4 then
            Except.error (ParseError.configurationError
              "cannot specify custom id_generator and a key prefix")
          else Except.ok (installPrefixedGenerator o4)

/-- All `int`/`float` coercions of `_parse_settings` succeed on the
collected options: every `configs_int` value coerces to an int, every
`configs_int_none` value is the string `"None"` or coerces to an int,
and a present `socket_timeout` is a float literal. -/
def allCoercible (o : Options) : Prop :=
  (∀ k ∈ configs_int, ∀ v, oget o k = some v →
    (pyIntOfVal v).isSome = true) ∧
  (∀ k ∈ configs_int_none, ∀ v, oget o k = some v →
    v = OptVal.vstr "None" ∨ (pyIntOfVal v).isSome = true) ∧
  (∀ v, oget o "socket_timeout" = some v → pyFloatOk (valStr v) = true)

end PyramidSessionRedis

namespace PyramidSessionRedis


lemma encode_x_characterization (m : α) (c : Int) (t x tt : Option Int)
    (pe : Bool) (now : Int) :
    (encode_session_payload m c t x tt pe now).map (fun p => p.x) =
      (if pyTruthy t = true ∧ pe = true then
        (if pyTruthy tt = false then Except.ok (some (now + t.getD 0))
         else
           match x with
           | none => Except.error ()
           | some e =>
             if now ≥ e - tt.getD 0 then Except.ok (some (now + t.getD 0))
             else Except.ok (if pyTruthy x = true ∧ pe = true then x else none))
       else Except.ok (if pyTruthy x = true ∧ pe = true then x else none)) := by
  unfold encode_session_payload
  cases t with
  | none => simp [pyTruthy, Except.map]; split <;> rfl
  | some tval =>
    by_cases htv : tval = 0
    · simp [htv, pyTruthy, Except.map]; split <;> rfl
    · cases pe with
      | false => simp [htv, pyTruthy, Except.map]
      | true =>
        cases tt with
        | none => simp [htv, pyTruthy, Except.map]
        | some tg =>
          by_cases htg : tg = 0
          · simp [htv, htg, pyTruthy, Except.map]
          · cases x with
            | none => simp [htv, htg, pyTruthy, Except.map]
            | some e =>
              by_cases hge : now ≥ e - tg
              · simp [htv, htg, hge, pyTruthy, Except.map]
              · by_cases he : e = 0
                · subst he
                  have h2 : ¬ (-tg ≤ now) := by omega
                  simp [htv, htg, h2, pyTruthy, Except.map]
                · simp [htv, htg, hge, he, pyTruthy, Except.map]



/-- Claim C2, counterexample: the round-trip law fails as stated.  At
`timeout = 0` and `expires = 100` (defaults `timeout_trigger = None`,
`python_expires = None`), decoding the encoded payload yields
`timeout = None` and `expires = None`, not the original values. -/
theorem encode_decode_roundtrip_counterexample :
    (encode_session_payload ([] : ManagedDict) 1 (some 0) (some 100) none false
        17).map decode_session_payload ≠
      Except.ok ⟨[], 1, SESSION_API_VERSION, some 0, some 100⟩ := by decide

/-- Claim C2, amended: with the call's default optional arguments
(`timeout_trigger` and `python_expires` unset),
`decode_session_payload (encode_session_payload m c t x)` returns
exactly `managed_dict = m`, `created = c`, `version` = current version,
`timeout` = `t` normalized by truthiness (zero becomes unset), and
`expires = None` regardless of `x`; the spec's law holds precisely when
`t` is unset or nonzero and `x` is unset. -/
theorem encode_decode_roundtrip_normalized (m : α) (c : Int) (t x : Option Int)
    (now : Int) :
    (encode_session_payload m c t x none false now).map decode_session_payload =
      Except.ok ⟨m, c, SESSION_API_VERSION,
        if pyTruthy t = true then t else none, none⟩ := by
  unfold encode_session_payload
  cases t with
  | none => simp [pyTruthy, Except.map, decode_session_payload]
  | some tval =>
    by_cases htv : tval = 0 <;>
      simp [htv, pyTruthy, Except.map, decode_session_payload]

/-- Claim C3: on a tracked persist (`timeout` nonzero, `python_expires`
set, a nonzero prior `expires = e`), when `timeout_trigger` is unset or
zero the stored expiry is recomputed to `now + timeout` on every encode;
when it is a nonzero `tg`, the expiry is recomputed if and only if
`now >= e - tg` (boundary included), and otherwise the prior `expires`
value is kept. -/
theorem encode_expiry_recompute_policy (m : α) (c : Int) (tval e : Int)
    (tt : Option Int) (now : Int) (htval : tval ≠ 0) (he : e ≠ 0) :
    ((tt = none ∨ tt = some 0) →
      (encode_session_payload m c (some tval) (some e) tt true now).map
          (fun p => p.x) =
        Except.ok (some (now + tval))) ∧
    (∀ tg, tt = some tg → tg ≠ 0 →
      (encode_session_payload m c (some tval) (some e) tt true now).map
          (fun p => p.x) =
        Except.ok (if now ≥ e - tg then some (now + tval) else some e)) := by
  constructor
  · rintro (rfl | rfl) <;>
      rw [encode_x_characterization] <;> simp [pyTruthy, htval]
  · rintro tg rfl htg
    rw [encode_x_characterization]
    by_cases hge : now ≥ e - tg <;> simp [pyTruthy, htval, htg, hge, he]

/-- Claim C9: `encode_session_payload` is not total: whenever `timeout`
is set (nonzero), `python_expires` is set, `timeout_trigger` is a
nonzero value and `expires` is unset, the trigger comparison
`expires - timeout_trigger` is evaluated against the absent `expires`
and the call raises `TypeError` instead of producing a payload. -/
theorem encode_session_payload_type_error (m : α) (c : Int) (tval tg : Int)
    (now : Int) (ht : tval ≠ 0) (htg : tg ≠ 0) :
    encode_session_payload m c (some tval) none (some tg) true now =
      Except.error () := by
  unfold encode_session_payload
  simp [pyTruthy, ht, htg]



/-- Claim C4, amended: in a successfully encoded payload, the key `x`
is present if and only if `python_expires` is set and, in addition,
either a truthy prior `expires` was carried over (the
`if expires and python_expires` branch), or `timeout` is truthy and
(no trigger is configured, or the recompute condition
`now >= expires - trigger` holds).  The original claim omitted the
carried-over case. -/
theorem encode_x_presence_iff (m : α) (c : Int) (t x tt : Option Int)
    (pe : Bool) (now : Int) (p : Payload α)
    (h : encode_session_payload m c t x tt pe now = Except.ok p) :
    p.x.isSome = true ↔
      (pe = true ∧ (pyTruthy x = true ∨
        (pyTruthy t = true ∧ (pyTruthy tt = false ∨
          ∃ e tg, x = some e ∧ tt = some tg ∧ now ≥ e - tg)))) := by
  have hx := encode_x_characterization m c t x tt pe now
  rw [h] at hx
  simp only [Except.map] at hx
  by_cases htp : pyTruthy t = true ∧ pe = true
  · rw [if_pos htp] at hx
    by_cases htt : pyTruthy tt = false
    · rw [if_pos htt] at hx
      injection hx with hx
      simp [hx, htp.1, htp.2, htt]
    · rw [if_neg htt] at hx
      have htt2 : pyTruthy tt = true := by
        cases hb : pyTruthy tt
        · exact absurd hb htt
        · rfl
      obtain ⟨tg, rfl⟩ : ∃ tg, tt = some tg := by
        cases tt with
        | none => simp [pyTruthy] at htt2
        | some tg => exact ⟨tg, rfl⟩
      cases x with
      | none => exact absurd hx (by simp)
      | some e =>
        simp only [Option.getD_some] at hx
        by_cases hge : now ≥ e - tg
        · rw [if_pos hge] at hx
          injection hx with hx
          simp only [hx, Option.isSome_some]
          constructor
          · intro _
            exact ⟨htp.2, Or.inr ⟨htp.1, Or.inr ⟨e, tg, rfl, rfl, hge⟩⟩⟩
          · intro _; trivial
        · rw [if_neg hge] at hx
          injection hx with hx
          rw [hx]
          constructor
          · intro hsome
            refine ⟨htp.2, Or.inl ?_⟩
            by_cases hxt : pyTruthy (some e) = true ∧ pe = true
            · exact hxt.1
            · rw [if_neg hxt] at hsome; simp at hsome
          · rintro ⟨-, hcase⟩
            rcases hcase with hxt | ⟨-, hcase⟩
            · simp [hxt, htp.2]
            · rcases hcase with h0 | ⟨e2, tg2, he2, htg2, hge2⟩
              · rw [htt2] at h0; cases h0
              · obtain rfl : e2 = e := by injection he2 with h3; omega
                obtain rfl : tg2 = tg := by injection htg2 with h3; omega
                exact absurd hge2 hge
  · rw [if_neg htp] at hx
    injection hx with hx
    rw [hx]
    by_cases hxp : pyTruthy x = true ∧ pe = true
    · rw [if_pos hxp]
      have : x.isSome = true := by
        cases x with
        | none => simp [pyTruthy] at hxp
        | some e => rfl
      simp [this, hxp.1, hxp.2]
    · rw [if_neg hxp]
      simp only [Option.isSome_none, Bool.false_eq_true, false_iff]
      rintro ⟨hpe, hcase⟩
      rcases hcase with hxt | ⟨htt3, -⟩
      · exact hxp ⟨hxt, hpe⟩
      · exact htp ⟨htt3, hpe⟩

/-- Claim C4, counterexample: with `python_expires` set, prior
`expires = 100`, `timeout = 10`, `timeout_trigger = 5` and `now = 0`,
the trigger is configured and the recompute condition fails, yet the
produced mapping still contains `x` (the preserved prior value),
contradicting "in all other cases the produced mapping contains no `x`
key". -/
theorem encode_x_presence_counterexample :
    (encode_session_payload ([] : ManagedDict) 1 (some 10) (some 100) (some 5)
        true 0).map (fun p => p.x) = Except.ok (some 100) ∧
      pyTruthy (some (5 : Int)) = true ∧ ¬((0 : Int) ≥ 100 - 5) := by decide

/-- Claim C7: a fresh payload stores `expires = created + timeout`;
and on every subsequent tracked encode of the same record (same nonzero
`timeout`, clock running forward from `created`, prior `expires` between
`created + timeout` and `prevNow + timeout`), the new `expires` is at
least `created + timeout`, never moves backward past the prior value,
and is at most `now + timeout` (so the bounds are maintained
inductively). -/
theorem session_expires_forward_invariant (m : α)
    (created tval prevNow now e : Int) (tt : Option Int) (p : Payload α)
    (hc : 0 < created) (ht : 0 < tval)
    (h1 : created ≤ prevNow) (h2 : prevNow ≤ now)
    (he1 : created + tval ≤ e) (he2 : e ≤ prevNow + tval)
    (hp : encode_session_payload m created (some tval) (some e) tt true now =
      Except.ok p) :
    ((empty_session_payload (some tval) true created).x =
      some (created + tval)) ∧
    ∃ e2, p.x = some e2 ∧ e ≤ e2 ∧ created + tval ≤ e2 ∧ e2 ≤ now + tval := by
  have htv : tval ≠ 0 := by omega
  have he0 : e ≠ 0 := by omega
  constructor
  · unfold empty_session_payload
    simp [htv]
  · have hx := encode_x_characterization m created (some tval) (some e) tt true now
    rw [hp] at hx
    simp only [Except.map, Option.getD_some] at hx
    rw [if_pos (show pyTruthy (some tval) = true ∧ True from
      ⟨by simp [pyTruthy, htv], trivial⟩)] at hx
    by_cases htt : pyTruthy tt = false
    · rw [if_pos htt] at hx
      injection hx with hx
      exact ⟨now + tval, hx, by omega, by omega, by omega⟩
    · rw [if_neg htt] at hx
      obtain ⟨tg, rfl⟩ : ∃ tg, tt = some tg := by
        cases tt with
        | none => simp [pyTruthy] at htt
        | some tg => exact ⟨tg, rfl⟩
      simp only [Option.getD_some] at hx
      by_cases hge : now ≥ e - tg
      · rw [if_pos hge] at hx
        injection hx with hx
        exact ⟨now + tval, hx, by omega, by omega, by omega⟩
      · rw [if_neg hge] at hx
        rw [if_pos (show pyTruthy (some e) = true ∧ True from
          ⟨by simp [pyTruthy, he0], trivial⟩)] at hx
        injection hx with hx
        exact ⟨e, hx, by omega, by omega, by omega⟩



/-- Claim C5: on an insertion attempt that reaches the write (key
absent, no watch conflict), the transaction's single write command is
`setex` — value and TTL in one atomic command — exactly when `timeout`
is a nonzero value and `set_redis_ttl` is set; in every other case it is
a plain `set`, which attaches no TTL. -/
theorem insert_session_ttl_write {V : Type} (redis : Store V)
    (timeout : Option Int) (sid : String) (payload : V) (srt wc : Bool)
    (hfree : redis sid = none) (hwc : wc = false) :
    (∀ tval, timeout = some tval → tval ≠ 0 → srt = true →
      (_insert_session_id_if_unique redis timeout sid payload srt wc).writes =
        [RedisWrite.setex sid tval payload]) ∧
    ((pyTruthy timeout = false ∨ srt = false) →
      (_insert_session_id_if_unique redis timeout sid payload srt wc).writes =
        [RedisWrite.set sid payload]) := by
  subst hwc
  unfold _insert_session_id_if_unique
  rw [hfree]
  constructor
  · rintro tval rfl htv rfl
    simp [htv]
  · rintro (htf | hsf)
    · cases timeout with
      | none => simp
      | some tval =>
        have htv0 : tval = 0 := by simpa [pyTruthy] using htf
        simp [htv0]
    · subst hsf
      cases timeout with
      | none => simp
      | some tval => simp

/-- Claim C1: in any run of `create_unique_session_id` that returns,
(a) an attempt that finds the candidate key holding a value, or whose
commit raises the watch conflict, yields `None` from
`_insert_session_id_if_unique` and the loop simply retries with the
next generated id (no error surfaced); and (b) the returned id is one
some iteration generated, whose key was observed absent under the
watch, whose commit raised no conflict, and whose payload was written
by that committed transaction. -/
theorem create_unique_session_id_retries_and_commits {V : Type}
    (gen : Nat → String) (stores : Nat → Store V) (timeout : Option Int)
    (payload : V) (srt : Bool) (conflict : Nat → Bool)
    (fuel k : Nat) (sid : String) (st : Store V)
    (hrun : create_unique_session_id gen stores timeout payload srt conflict
      fuel k = some (sid, st)) :
    (∀ j f2, ((stores j (gen j)).isSome = true ∨ conflict j = true) →
      ((_insert_session_id_if_unique (stores j) timeout (gen j) payload srt
          (conflict j)).result = none ∧
        create_unique_session_id gen stores timeout payload srt conflict
            (f2 + 1) j =
          create_unique_session_id gen stores timeout payload srt conflict
            f2 (j + 1))) ∧
    (∃ j, k ≤ j ∧ sid = gen j ∧ stores j (gen j) = none ∧
      conflict j = false ∧ st (gen j) = some payload) := by
  have hfail : ∀ j, ((stores j (gen j)).isSome = true ∨ conflict j = true) →
      (_insert_session_id_if_unique (stores j) timeout (gen j) payload srt
        (conflict j)).result = none := by
    intro j hj
    unfold _insert_session_id_if_unique
    cases hsj : stores j (gen j) with
    | some v => simp
    | none =>
      rcases hj with hj | hj
      · rw [hsj] at hj; simp at hj
      · rw [hj]; simp
  constructor
  · intro j f2 hj
    refine ⟨hfail j hj, ?_⟩
    conv_lhs => rw [create_unique_session_id]
    rw [hfail j hj]
  · induction fuel generalizing k with
    | zero => simp [create_unique_session_id] at hrun
    | succ f ih =>
      rw [create_unique_session_id] at hrun
      cases hres : (_insert_session_id_if_unique (stores k) timeout (gen k)
          payload srt (conflict k)).result with
      | some s =>
        rw [hres] at hrun
        simp only [Option.some.injEq, Prod.mk.injEq] at hrun
        obtain ⟨rfl, rfl⟩ := hrun
        unfold _insert_session_id_if_unique at hres ⊢
        cases hsk : stores k (gen k) with
        | some v => rw [hsk] at hres; simp at hres
        | none =>
          rw [hsk] at hres
          cases hck : conflict k with
          | true => rw [hck] at hres; simp at hres
          | false =>
            rw [hck] at hres
            simp only [Bool.false_eq_true, if_false] at hres
            obtain rfl : gen k = s := by
              simpa using hres
            refine ⟨k, le_refl k, rfl, hsk, hck, ?_⟩
            simp only [Bool.false_eq_true, if_false]
            unfold applyWrite
            cases timeout with
            | none => simp
            | some tval =>
              by_cases htv : tval ≠ 0 ∧ srt = true <;> simp [htv]
      | none =>
        rw [hres] at hrun
        obtain ⟨j, hkj, rest⟩ := ih (k + 1) hrun
        exact ⟨j, by omega, rest⟩



lemma base64Sextets_length :
    ∀ (bytes : List Nat) (n : Nat), bytes.length = 3 * n →
      (base64Sextets bytes).length = 4 * n := by
  intro bytes n
  induction n generalizing bytes with
  | zero =>
    intro h
    cases bytes with
    | nil => simp [base64Sextets]
    | cons b1 t1 => simp at h
  | succ n ih =>
    intro h
    cases bytes with
    | nil => simp at h
    | cons b1 t1 =>
      cases t1 with
      | nil => simp at h; omega
      | cons b2 t2 =>
        cases t2 with
        | nil => simp at h; omega
        | cons b3 rest =>
          have hrest : rest.length = 3 * n := by simp at h; omega
          simp only [base64Sextets, List.length_cons]
          rw [ih rest hrest]
          omega

lemma base64Sextets_lt :
    ∀ (bytes : List Nat), (∀ b ∈ bytes, b < 256) →
      ∀ s ∈ base64Sextets bytes, s < 64
  | [], _ => by simp [base64Sextets]
  | [b1], hb => by
    have h1 : b1 < 256 := hb b1 (by simp)
    simp only [base64Sextets, List.mem_cons, List.not_mem_nil, or_false]
    rintro s (rfl | rfl) <;> omega
  | [b1, b2], hb => by
    have h1 : b1 < 256 := hb b1 (by simp)
    have h2 : b2 < 256 := hb b2 (by simp)
    simp only [base64Sextets, List.mem_cons, List.not_mem_nil, or_false]
    rintro s (rfl | rfl | rfl) <;> omega
  | b1 :: b2 :: b3 :: rest, hb => by
    have h1 : b1 < 256 := hb b1 (by simp)
    have h2 : b2 < 256 := hb b2 (by simp)
    have h3 : b3 < 256 := hb b3 (by simp)
    have hr : ∀ b ∈ rest, b < 256 := fun b hbr => hb b (by simp [hbr])
    have ihr := base64Sextets_lt rest hr
    simp only [base64Sextets, List.mem_cons]
    rintro s (rfl | rfl | rfl | rfl | hs)
    · omega
    · omega
    · omega
    · omega
    · exact ihr s hs

lemma base64SextetsDecode_encode :
    ∀ (bytes : List Nat), (∀ b ∈ bytes, b < 256) →
      base64SextetsDecode (base64Sextets bytes) = bytes
  | [], _ => by simp [base64Sextets, base64SextetsDecode]
  | [b1], hb => by
    have h1 : b1 < 256 := hb b1 (by simp)
    simp only [base64Sextets, base64SextetsDecode, List.cons.injEq, and_true]
    omega
  | [b1, b2], hb => by
    have h1 : b1 < 256 := hb b1 (by simp)
    have h2 : b2 < 256 := hb b2 (by simp)
    simp only [base64Sextets, base64SextetsDecode, List.cons.injEq, and_true]
    constructor <;> omega
  | b1 :: b2 :: b3 :: rest, hb => by
    have h1 : b1 < 256 := hb b1 (by simp)
    have h2 : b2 < 256 := hb b2 (by simp)
    have h3 : b3 < 256 := hb b3 (by simp)
    have hr : ∀ b ∈ rest, b < 256 := fun b hbr => hb b (by simp [hbr])
    have ihr := base64SextetsDecode_encode rest hr
    simp only [base64Sextets, base64SextetsDecode, List.cons.injEq]
    refine ⟨by omega, by omega, by omega, ihr⟩

lemma b64urlChar_mem (n : Nat) : b64urlChar n ∈ b64urlAlphabet := by
  by_cases h : n < 64
  · have key : ∀ i : Fin 64, b64urlChar i.val ∈ b64urlAlphabet := by decide
    exact key ⟨n, h⟩
  · unfold b64urlChar
    rw [List.getD_eq_default]
    · decide
    · have hl : b64urlAlphabet.length = 64 := by decide
      omega

lemma b64urlChar_inj_lt :
    ∀ a b : Nat, a < 64 → b < 64 → b64urlChar a = b64urlChar b → a = b := by
  have key : ∀ a : Fin 64, ∀ b : Fin 64,
      b64urlChar a.val = b64urlChar b.val → a = b := by decide
  intro a b ha hb heq
  have := key ⟨a, ha⟩ ⟨b, hb⟩ heq
  exact congrArg Fin.val this

lemma map_b64urlChar_inj :
    ∀ (l1 l2 : List Nat), (∀ s ∈ l1, s < 64) → (∀ s ∈ l2, s < 64) →
      l1.map b64urlChar = l2.map b64urlChar → l1 = l2
  | [], [], _, _, _ => rfl
  | [], b :: l2, _, _, h => by simp at h
  | a :: l1, [], _, _, h => by simp at h
  | a :: l1, b :: l2, h1, h2, h => by
    simp only [List.map_cons, List.cons.injEq] at h
    have hab : a = b :=
      b64urlChar_inj_lt a b (h1 a (by simp)) (h2 b (by simp)) h.1
    have htail := map_b64urlChar_inj l1 l2
      (fun s hs => h1 s (by simp [hs])) (fun s hs => h2 s (by simp [hs])) h.2
    rw [hab, htail]

/-- Claim C6: on 48 bytes drawn from the CSPRNG, the default id
generator produces a 64-character string whose characters all belong to
the URL-safe base64 alphabet, containing no `=` padding, and the
encoding is injective on 48-byte inputs — the string carries all 384
bits of the input randomness. -/
theorem generate_session_id_entropy (bytes : List Nat)
    (hlen : bytes.length = 48) (hb : ∀ b ∈ bytes, b < 256) :
    (_generate_session_id bytes).toList.length = 64 ∧
    (∀ ch ∈ (_generate_session_id bytes).toList, ch ∈ b64urlAlphabet) ∧
    ('=' ∉ (_generate_session_id bytes).toList) ∧
    (∀ bytes2, bytes2.length = 48 → (∀ b ∈ bytes2, b < 256) →
      _generate_session_id bytes = _generate_session_id bytes2 →
        bytes = bytes2) := by
  have hchars : (_generate_session_id bytes).toList =
      (base64Sextets bytes).map b64urlChar := rfl
  refine ⟨?_, ?_, ?_, ?_⟩
  · rw [hchars, List.length_map, base64Sextets_length bytes 16 (by omega)]
  · rw [hchars]
    intro ch hch
    obtain ⟨s, -, rfl⟩ := List.mem_map.mp hch
    exact b64urlChar_mem s
  · rw [hchars]
    intro hmem
    obtain ⟨s, -, hs⟩ := List.mem_map.mp hmem
    have := b64urlChar_mem s
    rw [hs] at this
    exact absurd this (by decide)
  · intro bytes2 hlen2 hb2 heq
    have hdata : (base64Sextets bytes).map b64urlChar =
        (base64Sextets bytes2).map b64urlChar := by
      have : (_generate_session_id bytes).toList =
          (_generate_session_id bytes2).toList := by rw [heq]
      rwa [hchars] at this
    have hsex : base64Sextets bytes = base64Sextets bytes2 :=
      map_b64urlChar_inj _ _ (base64Sextets_lt bytes hb)
        (base64Sextets_lt bytes2 hb2) hdata
    calc bytes = base64SextetsDecode (base64Sextets bytes) :=
        (base64SextetsDecode_encode bytes hb).symm
      _ = base64SextetsDecode (base64Sextets bytes2) := by rw [hsex]
      _ = bytes2 := base64SextetsDecode_encode bytes2 hb2





lemma oget_oset (o : Options) (k : String) (v : OptVal) (k2 : String) :
    oget (oset o k v) k2 = if k = k2 then some v else oget o k2 := by
  induction o with
  | nil => simp [oset, oget]
  | cons hd tl ih =>
    obtain ⟨k1, v1⟩ := hd
    by_cases h1 : k1 = k
    · subst h1
      by_cases h2 : k1 = k2 <;> simp [oset, oget, h2]
    · by_cases h2 : k1 = k2
      · subst h2
        have hk2 : ¬(k = k1) := fun hk => h1 hk.symm
        simp [oset, oget, h1, hk2]
      · simp [oset, oget, h1, h2, ih]

lemma oget_opop (o : Options) (k k2 : String) (h : k2 ≠ k) :
    oget (opop o k) k2 = oget o k2 := by
  induction o with
  | nil => rfl
  | cons hd tl ih =>
    obtain ⟨k1, v1⟩ := hd
    by_cases h1 : k1 = k
    · subst h1
      have hk2 : ¬(k1 = k2) := fun hk => h hk.symm
      simp [opop, oget, hk2]
    · by_cases h2 : k1 = k2 <;> simp [opop, oget, h1, h2, h, ih]

lemma coerceBoolKey_oget_isSome (o : Options) (a k : String) :
    (oget (coerceBoolKey o a) k).isSome = (oget o k).isSome := by
  unfold coerceBoolKey
  cases ha : oget o a with
  | none => rfl
  | some v =>
    rw [oget_oset]
    by_cases hak : a = k
    · subst hak; rw [if_pos rfl, ha]; rfl
    · rw [if_neg hak]

lemma coerceBoolKey_oget_ne (o : Options) (a k : String) (h : k ≠ a) :
    oget (coerceBoolKey o a) k = oget o k := by
  unfold coerceBoolKey
  cases ha : oget o a with
  | none => rfl
  | some v => rw [oget_oset, if_neg (fun hk => h hk.symm)]

lemma boolFold_oget_isSome (keys : List String) (o : Options) (k : String) :
    (oget (keys.foldl coerceBoolKey o) k).isSome = (oget o k).isSome := by
  induction keys generalizing o with
  | nil => rfl
  | cons a keys ih =>
    rw [List.foldl_cons, ih, coerceBoolKey_oget_isSome]

lemma boolFold_oget_notin (keys : List String) (o : Options) (k : String)
    (hk : k ∉ keys) :
    oget (keys.foldl coerceBoolKey o) k = oget o k := by
  induction keys generalizing o with
  | nil => rfl
  | cons a keys ih =>
    simp only [List.mem_cons, not_or] at hk
    rw [List.foldl_cons, ih _ hk.2, coerceBoolKey_oget_ne _ _ _ hk.1]

lemma coerceIntKey_ok (o : Options) (a : String)
    (h : ∀ v, oget o a = some v → (pyIntOfVal v).isSome = true) :
    ∃ o1, coerceIntKey o a = Except.ok o1 ∧
      (∀ k, (oget o1 k).isSome = (oget o k).isSome) ∧
      (∀ k, k ≠ a → oget o1 k = oget o k) ∧
      (∀ v, oget o1 a = some v → (pyIntOfVal v).isSome = true) := by
  cases ha : oget o a with
  | none =>
    refine ⟨o, ?_, fun k => rfl, fun k _ => rfl, fun v hv => ?_⟩
    · simp only [coerceIntKey, ha]
    · rw [ha] at hv; simp at hv
  | some v =>
    have hs := h v ha
    cases hpi : pyIntOfVal v with
    | none => rw [hpi] at hs; simp at hs
    | some n =>
      refine ⟨oset o a (OptVal.vint n), ?_, ?_, ?_, ?_⟩
      · simp only [coerceIntKey, ha, hpi]
      · intro k
        rw [oget_oset]
        by_cases hak : a = k
        · subst hak; rw [if_pos rfl, ha]; rfl
        · rw [if_neg hak]
      · intro k hk
        rw [oget_oset, if_neg (fun h2 => hk h2.symm)]
      · intro v2 hv2
        rw [oget_oset, if_pos rfl] at hv2
        cases hv2
        rfl

lemma intFold_ok (keys : List String) (o : Options)
    (h : ∀ k ∈ keys, ∀ v, oget o k = some v → (pyIntOfVal v).isSome = true) :
    ∃ o2, keys.foldlM coerceIntKey o = Except.ok o2 ∧
      (∀ k, (oget o2 k).isSome = (oget o k).isSome) ∧
      (∀ k, k ∉ keys → oget o2 k = oget o k) := by
  induction keys generalizing o with
  | nil => exact ⟨o, rfl, fun k => rfl, fun k _ => rfl⟩
  | cons a keys ih =>
    obtain ⟨o1, ho1, hsome1, hne1, hself1⟩ :=
      coerceIntKey_ok o a (h a (by simp))
    have hready : ∀ k ∈ keys, ∀ v, oget o1 k = some v →
        (pyIntOfVal v).isSome = true := by
      intro k hk v hv
      by_cases hka : k = a
      · subst hka; exact hself1 v hv
      · rw [hne1 k hka] at hv
        exact h k (by simp [hk]) v hv
    obtain ⟨o2, ho2, hsome2, hnin2⟩ := ih o1 hready
    refine ⟨o2, ?_, ?_, ?_⟩
    · rw [List.foldlM_cons, ho1]
      simpa using ho2
    · intro k; rw [hsome2, hsome1]
    · intro k hk
      simp only [List.mem_cons, not_or] at hk
      rw [hnin2 k hk.2, hne1 k hk.1]



lemma coerceIntNoneKey_ok (o : Options) (a : String)
    (h : ∀ v, oget o a = some v →
      v = OptVal.vstr "None" ∨ (pyIntOfVal v).isSome = true) :
    ∃ o1, coerceIntNoneKey o a = Except.ok o1 ∧
      (∀ k, (oget o1 k).isSome = (oget o k).isSome) ∧
      (∀ k, k ≠ a → oget o1 k = oget o k) := by
  cases ha : oget o a with
  | none =>
    exact ⟨o, by simp only [coerceIntNoneKey, ha], fun k => rfl, fun k _ => rfl⟩
  | some v =>
    by_cases hnv : v = OptVal.vstr "None"
    · refine ⟨oset o a OptVal.vnone, ?_, ?_, ?_⟩
      · simp only [coerceIntNoneKey, ha, if_pos hnv]
      · intro k
        rw [oget_oset]
        by_cases hak : a = k
        · subst hak; rw [if_pos rfl, ha]; rfl
        · rw [if_neg hak]
      · intro k hk
        rw [oget_oset, if_neg (fun h2 => hk h2.symm)]
    · have hs := (h v ha).resolve_left hnv
      cases hpi : pyIntOfVal v with
      | none => rw [hpi] at hs; simp at hs
      | some n =>
        refine ⟨oset o a (if n = 0 then OptVal.vnone else OptVal.vint n),
          ?_, ?_, ?_⟩
        · simp only [coerceIntNoneKey, ha, if_neg hnv, hpi]
        · intro k
          rw [oget_oset]
          by_cases hak : a = k
          · subst hak; rw [if_pos rfl, ha]; rfl
          · rw [if_neg hak]
        · intro k hk
          rw [oget_oset, if_neg (fun h2 => hk h2.symm)]

/-- Inversion: a successful `configs_int_none` step leaves other keys
alone and leaves the processed key absent, `None`, or a nonzero int. -/
lemma coerceIntNoneKey_ok_inv (o o1 : Options) (a : String)
    (h : coerceIntNoneKey o a = Except.ok o1) :
    (∀ k, k ≠ a → oget o1 k = oget o k) ∧
    (oget o1 a = none ∨ oget o1 a = some OptVal.vnone ∨
      ∃ n, n ≠ 0 ∧ oget o1 a = some (OptVal.vint n)) := by
  cases ha : oget o a with
  | none =>
    have hc : coerceIntNoneKey o a = Except.ok o := by
      simp [coerceIntNoneKey, ha]
    rw [hc] at h
    simp only [Except.ok.injEq] at h
    subst h
    exact ⟨fun k _ => rfl, Or.inl ha⟩
  | some v =>
    by_cases hnv : v = OptVal.vstr "None"
    · have hc : coerceIntNoneKey o a = Except.ok (oset o a OptVal.vnone) := by
        simp [coerceIntNoneKey, ha, hnv]
      rw [hc] at h
      simp only [Except.ok.injEq] at h
      subst h
      refine ⟨fun k hk => by rw [oget_oset, if_neg (fun h2 => hk h2.symm)],
        Or.inr (Or.inl ?_)⟩
      rw [oget_oset, if_pos rfl]
    · cases hpi : pyIntOfVal v with
      | none =>
        have hc : coerceIntNoneKey o a = Except.error ParseError.valueError := by
          simp [coerceIntNoneKey, ha, hnv, hpi]
        rw [hc] at h
        cases h
      | some n =>
        have hc : coerceIntNoneKey o a =
            Except.ok (oset o a
              (if n = 0 then OptVal.vnone else OptVal.vint n)) := by
          simp [coerceIntNoneKey, ha, hnv, hpi]
        rw [hc] at h
        simp only [Except.ok.injEq] at h
        subst h
        refine ⟨fun k hk =>
          by rw [oget_oset, if_neg (fun h2 => hk h2.symm)], ?_⟩
        by_cases hn : n = 0
        · refine Or.inr (Or.inl ?_)
          rw [oget_oset, if_pos rfl, if_pos hn]
        · refine Or.inr (Or.inr ⟨n, hn, ?_⟩)
          rw [oget_oset, if_pos rfl, if_neg hn]

/-- The value stored by a successful `configs_int_none` step when the
raw value is the string `"None"` or coerces to zero. -/
lemma coerceIntNoneKey_normalizes (o o1 : Options) (a : String) (s : String)
    (hval : oget o a = some (OptVal.vstr s))
    (hz : s = "None" ∨ pyInt s = some 0)
    (h : coerceIntNoneKey o a = Except.ok o1) :
    oget o1 a = some OptVal.vnone := by
  by_cases hnv : OptVal.vstr s = OptVal.vstr "None"
  · have hc : coerceIntNoneKey o a = Except.ok (oset o a OptVal.vnone) := by
      simp [coerceIntNoneKey, hval, hnv]
    rw [hc] at h
    simp only [Except.ok.injEq] at h
    subst h
    rw [oget_oset, if_pos rfl]
  · have hs0 : pyInt s = some 0 := by
      rcases hz with hz | hz
      · exact absurd (by rw [hz]) hnv
      · exact hz
    have hc : coerceIntNoneKey o a = Except.ok (oset o a OptVal.vnone) := by
      simp [coerceIntNoneKey, hval, hnv, pyIntOfVal, hs0]
    rw [hc] at h
    simp only [Except.ok.injEq] at h
    subst h
    rw [oget_oset, if_pos rfl]

lemma coerceFloat_ok (o : Options)
    (h : ∀ v, oget o "socket_timeout" = some v → pyFloatOk (valStr v) = true) :
    ∃ o1, coerceFloat o = Except.ok o1 ∧
      (∀ k, (oget o1 k).isSome = (oget o k).isSome) ∧
      (∀ k, k ≠ "socket_timeout" → oget o1 k = oget o k) := by
  cases ha : oget o "socket_timeout" with
  | none =>
    exact ⟨o, by simp [coerceFloat, ha], fun k => rfl, fun k _ => rfl⟩
  | some v =>
    have hc : coerceFloat o =
        Except.ok (oset o "socket_timeout" (OptVal.vfloat (valStr v))) := by
      simp [coerceFloat, ha, h v ha]
    refine ⟨_, hc, ?_, ?_⟩
    · intro k
      rw [oget_oset]
      by_cases hak : "socket_timeout" = k
      · subst hak; rw [if_pos rfl, ha]; rfl
      · rw [if_neg hak]
    · intro k hk
      rw [oget_oset, if_neg (fun h2 => hk h2.symm)]

/-- Inversion: a successful float coercion leaves every other key
untouched. -/
lemma coerceFloat_ok_inv (o o1 : Options)
    (h : coerceFloat o = Except.ok o1) :
    ∀ k, k ≠ "socket_timeout" → oget o1 k = oget o k := by
  cases ha : oget o "socket_timeout" with
  | none =>
    have hc : coerceFloat o = Except.ok o := by simp [coerceFloat, ha]
    rw [hc] at h
    simp only [Except.ok.injEq] at h
    subst h
    exact fun k _ => rfl
  | some v =>
    by_cases hf : pyFloatOk (valStr v) = true
    · have hc : coerceFloat o =
          Except.ok (oset o "socket_timeout" (OptVal.vfloat (valStr v))) := by
        simp [coerceFloat, ha, hf]
      rw [hc] at h
      simp only [Except.ok.injEq] at h
      subst h
      intro k hk
      rw [oget_oset, if_neg (fun h2 => hk h2.symm)]
    · have hc : coerceFloat o = Except.error ParseError.valueError := by
        simp [coerceFloat, ha, hf]
      rw [hc] at h
      cases h

/-- `installPrefixedGenerator` leaves every key other than `prefix` and
`id_generator` untouched. -/
lemma installPrefixedGenerator_oget (o : Options) (k : String)
    (h1 : k ≠ "prefix") (h2 : k ≠ "id_generator") :
    oget (installPrefixedGenerator o) k = oget o k := by
  unfold installPrefixedGenerator
  cases hp : oget o "prefix" with
  | none => rfl
  | some v =>
    rw [oget_oset, if_neg (fun hk => h2 hk.symm), oget_opop _ _ _ h1]



lemma coerceIntKey_ok_inv (o o1 : Options) (a : String)
    (h : coerceIntKey o a = Except.ok o1) :
    ∀ k, k ≠ a → oget o1 k = oget o k := by
  cases ha : oget o a with
  | none =>
    have hc : coerceIntKey o a = Except.ok o := by simp [coerceIntKey, ha]
    rw [hc] at h
    simp only [Except.ok.injEq] at h
    subst h
    exact fun k _ => rfl
  | some v =>
    cases hpi : pyIntOfVal v with
    | none =>
      have hc : coerceIntKey o a = Except.error ParseError.valueError := by
        simp [coerceIntKey, ha, hpi]
      rw [hc] at h
      cases h
    | some n =>
      have hc : coerceIntKey o a = Except.ok (oset o a (OptVal.vint n)) := by
        simp [coerceIntKey, ha, hpi]
      rw [hc] at h
      simp only [Except.ok.injEq] at h
      subst h
      intro k hk
      rw [oget_oset, if_neg (fun h2 => hk h2.symm)]

lemma intFold_ok_inv (keys : List String) (o o2 : Options)
    (h : keys.foldlM coerceIntKey o = Except.ok o2) :
    ∀ k, k ∉ keys → oget o2 k = oget o k := by
  induction keys generalizing o with
  | nil =>
    have h2 : o = o2 := by
      have : (Except.ok o : Except ParseError Options) = Except.ok o2 := h
      simpa using this
    subst h2
    exact fun k _ => rfl
  | cons a keys ih =>
    rw [List.foldlM_cons] at h
    cases hs : coerceIntKey o a with
    | error e =>
      rw [hs] at h
      have : (Except.error e : Except ParseError Options) = Except.ok o2 := h
      cases this
    | ok o1 =>
      rw [hs] at h
      have h2 : keys.foldlM coerceIntKey o1 = Except.ok o2 := h
      intro k hk
      simp only [List.mem_cons, not_or] at hk
      rw [ih o1 h2 k hk.2, coerceIntKey_ok_inv o o1 a hs k hk.1]

lemma coerceBools_oget_isSome (o : Options) (k : String) :
    (oget (coerceBools o) k).isSome = (oget o k).isSome :=
  boolFold_oget_isSome configs_bool o k

lemma coerceBools_oget_notin (o : Options) (k : String)
    (hk : k ∉ configs_bool) :
    oget (coerceBools o) k = oget o k :=
  boolFold_oget_notin configs_bool o k hk

/-- Splitting `coerceIntNones` into its two key steps. -/
lemma coerceIntNones_eq (o : Options) :
    coerceIntNones o =
      Except.bind (coerceIntNoneKey o "timeout")
        (fun o1 => coerceIntNoneKey o1 "timeout_trigger") := by
  show List.foldlM coerceIntNoneKey o ["timeout", "timeout_trigger"] = _
  rw [List.foldlM_cons]
  cases h1 : coerceIntNoneKey o "timeout" with
  | error e => rfl
  | ok o1 =>
    show List.foldlM coerceIntNoneKey o1 ["timeout_trigger"] =
      coerceIntNoneKey o1 "timeout_trigger"
    rw [List.foldlM_cons]
    cases h2 : coerceIntNoneKey o1 "timeout_trigger" with
    | error e => rfl
    | ok o3 => rfl

lemma coerceIntNones_ok (o : Options)
    (h : ∀ k ∈ configs_int_none, ∀ v, oget o k = some v →
      v = OptVal.vstr "None" ∨ (pyIntOfVal v).isSome = true) :
    ∃ o3, coerceIntNones o = Except.ok o3 ∧
      (∀ k, (oget o3 k).isSome = (oget o k).isSome) ∧
      (∀ k, k ∉ configs_int_none → oget o3 k = oget o k) := by
  obtain ⟨o1, ho1, hsome1, hne1⟩ :=
    coerceIntNoneKey_ok o "timeout" (h "timeout" (by simp [configs_int_none]))
  obtain ⟨o3, ho3, hsome3, hne3⟩ :=
    coerceIntNoneKey_ok o1 "timeout_trigger"
      (by
        intro v hv
        rw [hne1 "timeout_trigger" (by decide)] at hv
        exact h "timeout_trigger" (by simp [configs_int_none]) v hv)
  refine ⟨o3, ?_, ?_, ?_⟩
  · rw [coerceIntNones_eq, ho1]
    exact ho3
  · intro k; rw [hsome3, hsome1]
  · intro k hk
    simp only [configs_int_none, List.mem_cons, not_or,
      List.not_mem_nil] at hk
    rw [hne3 k (by simp [hk.2.1]), hne1 k (by simp [hk.1])]

lemma coerceIntNones_ok_inv (o o3 : Options)
    (h : coerceIntNones o = Except.ok o3) :
    ∃ o1, coerceIntNoneKey o "timeout" = Except.ok o1 ∧
      coerceIntNoneKey o1 "timeout_trigger" = Except.ok o3 := by
  rw [coerceIntNones_eq] at h
  cases h1 : coerceIntNoneKey o "timeout" with
  | error e =>
    rw [h1] at h
    have : (Except.error e : Except ParseError Options) = Except.ok o3 := h
    cases this
  | ok o1 =>
    rw [h1] at h
    exact ⟨o1, rfl, h⟩



/-- Inversion of a successful `_parse_settings` run into its pipeline
stages. -/
lemma parse_settings_ok_inv (settings : List (String × String))
    (opts : Options) (h : _parse_settings settings = Except.ok opts) :
    ∃ o2 o3 o4,
      coerceInts (coerceBools (collectOptions settings)) = Except.ok o2 ∧
      coerceIntNones o2 = Except.ok o3 ∧
      coerceFloat o3 = Except.ok o4 ∧
      prefixGeneratorConflict o4 = false ∧
      opts = installPrefixedGenerator o4 := by
  unfold _parse_settings at h
  split at h
  · exact absurd h (by simp)
  · split at h
    next e heq => exact absurd h (by simp)
    next o2 heq =>
      split at h
      next e heq2 => exact absurd h (by simp)
      next o3 heq2 =>
        split at h
        next e heq3 => exact absurd h (by simp)
        next o4 heq3 =>
          split at h
          · exact absurd h (by simp)
          next hconf =>
            refine ⟨o2, o3, o4, heq, heq2, heq3, by simpa using hconf, ?_⟩
            have := h
            simp only [Except.ok.injEq] at this
            exact this.symm



/-- Claim C8, amended: restricted to settings whose int and float
values are coercible, `_parse_settings` raises a configuration error
precisely when the signing credentials are misconfigured (neither or
both of `secret` and `cookie_signer` truthy) or both a `prefix` and an
`id_generator` are present; otherwise it returns the coerced options.
(Unrestricted, a non-coercible value raises `ValueError` instead — see
the counterexample.) -/
theorem parse_settings_config_error_iff (settings : List (String × String))
    (hc : allCoercible (collectOptions settings)) :
    ((∃ msg, _parse_settings settings =
        Except.error (ParseError.configurationError msg)) ↔
      (credsMisconfigured (collectOptions settings) = true ∨
        prefixGeneratorConflict (collectOptions settings) = true)) ∧
    ((credsMisconfigured (collectOptions settings) = false ∧
      prefixGeneratorConflict (collectOptions settings) = false) →
      ∃ opts, _parse_settings settings = Except.ok opts) := by
  obtain ⟨hci, hcn, hcf⟩ := hc
  cases hcred : credsMisconfigured (collectOptions settings) with
  | true =>
    have hp : _parse_settings settings = Except.error
        (ParseError.configurationError
          "One, and only one, of redis.sessions.secret and redis.sessions.cookie_signer must be provided.") := by
      unfold _parse_settings
      rw [if_pos hcred]
    refine ⟨⟨fun _ => Or.inl rfl, fun _ => ⟨_, hp⟩⟩, ?_⟩
    rintro ⟨hf, -⟩
    exact Bool.noConfusion hf
  | false =>
    have hready_int : ∀ k ∈ configs_int, ∀ v,
        oget (coerceBools (collectOptions settings)) k = some v →
        (pyIntOfVal v).isSome = true := by
      intro k hk v hv
      have hkb : k ∉ configs_bool := by
        fin_cases hk <;> decide
      rw [coerceBools_oget_notin _ _ hkb] at hv
      exact hci k hk v hv
    obtain ⟨o2, ho2, hsome2, hnin2⟩ :=
      intFold_ok configs_int (coerceBools (collectOptions settings)) hready_int
    have ho2c : coerceInts (coerceBools (collectOptions settings)) =
        Except.ok o2 := ho2
    have hready_in : ∀ k ∈ configs_int_none, ∀ v, oget o2 k = some v →
        v = OptVal.vstr "None" ∨ (pyIntOfVal v).isSome = true := by
      intro k hk v hv
      have hki : k ∉ configs_int := by fin_cases hk <;> decide
      have hkb : k ∉ configs_bool := by fin_cases hk <;> decide
      rw [hnin2 k hki, coerceBools_oget_notin _ _ hkb] at hv
      exact hcn k hk v hv
    obtain ⟨o3, ho3, hsome3, hnin3⟩ := coerceIntNones_ok o2 hready_in
    have hready_f : ∀ v, oget o3 "socket_timeout" = some v →
        pyFloatOk (valStr v) = true := by
      intro v hv
      rw [hnin3 _ (by decide), hnin2 _ (by decide),
        coerceBools_oget_notin _ _ (by decide)] at hv
      exact hcf v hv
    obtain ⟨o4, ho4, hsome4, hne4⟩ := coerceFloat_ok o3 hready_f
    have hps : ∀ k, k ≠ "socket_timeout" →
        (oget o4 k).isSome = (oget (collectOptions settings) k).isSome := by
      intro k hk
      rw [hne4 k hk, hsome3, hsome2, coerceBools_oget_isSome]
    have hconf : prefixGeneratorConflict o4 =
        prefixGeneratorConflict (collectOptions settings) := by
      unfold prefixGeneratorConflict
      rw [hps "prefix" (by decide), hps "id_generator" (by decide)]
    have hparse : _parse_settings settings =
        (if prefixGeneratorConflict o4 then
          Except.error (ParseError.configurationError
            "cannot specify custom id_generator and a key prefix")
        else Except.ok (installPrefixedGenerator o4)) := by
      unfold _parse_settings
      rw [if_neg (by simp [hcred]), ho2c]
      show (match coerceIntNones o2 with
        | Except.error e => Except.error e
        | Except.ok o3 =>
          match coerceFloat o3 with
          | Except.error e => Except.error e
          | Except.ok o4 =>
            if prefixGeneratorConflict o4 then
              Except.error (ParseError.configurationError
                "cannot specify custom id_generator and a key prefix")
            else Except.ok (installPrefixedGenerator o4)) = _
      rw [ho3]
      show (match coerceFloat o3 with
        | Except.error e => Except.error e
        | Except.ok o4 =>
          if prefixGeneratorConflict o4 then
            Except.error (ParseError.configurationError
              "cannot specify custom id_generator and a key prefix")
          else Except.ok (installPrefixedGenerator o4)) = _
      rw [ho4]
    cases hconfv : prefixGeneratorConflict (collectOptions settings) with
    | true =>
      have hp2 : _parse_settings settings = Except.error
          (ParseError.configurationError
            "cannot specify custom id_generator and a key prefix") := by
        rw [hparse, hconf, hconfv]
        rfl
      refine ⟨⟨fun _ => Or.inr rfl, fun _ => ⟨_, hp2⟩⟩, ?_⟩
      rintro ⟨-, hf⟩
      exact Bool.noConfusion hf
    | false =>
      have hp2 : _parse_settings settings =
          Except.ok (installPrefixedGenerator o4) := by
        rw [hparse, hconf, hconfv]
        rfl
      refine ⟨⟨?_, ?_⟩, fun _ => ⟨_, hp2⟩⟩
      · rintro ⟨msg, hmsg⟩
        rw [hp2] at hmsg
        cases hmsg
      · rintro (hf | hf) <;> exact Bool.noConfusion hf
      


/-- Claim C10: in any options mapping `_parse_settings` returns, the
`timeout` and `timeout_trigger` keys, when present, hold `None` or a
nonzero int — never 0; and a raw value that is the string `"None"` or
coerces to integer zero is normalized to `None`. -/
theorem parse_settings_timeout_never_zero (settings : List (String × String))
    (opts : Options) (h : _parse_settings settings = Except.ok opts) :
    (∀ v, oget opts "timeout" = some v →
      v = OptVal.vnone ∨ ∃ n, n ≠ 0 ∧ v = OptVal.vint n) ∧
    (∀ v, oget opts "timeout_trigger" = some v →
      v = OptVal.vnone ∨ ∃ n, n ≠ 0 ∧ v = OptVal.vint n) ∧
    (∀ s, oget (collectOptions settings) "timeout" = some (OptVal.vstr s) →
      (s = "None" ∨ pyInt s = some 0) →
        oget opts "timeout" = some OptVal.vnone) ∧
    (∀ s, oget (collectOptions settings) "timeout_trigger" =
        some (OptVal.vstr s) →
      (s = "None" ∨ pyInt s = some 0) →
        oget opts "timeout_trigger" = some OptVal.vnone) := by
  obtain ⟨o2, o3, o4, hi, hn, hf2, hconf, hopts⟩ :=
    parse_settings_ok_inv settings opts h
  obtain ⟨o1, hs1, hs2⟩ := coerceIntNones_ok_inv o2 o3 hn
  obtain ⟨hne1, hshape1⟩ := coerceIntNoneKey_ok_inv o2 o1 "timeout" hs1
  obtain ⟨hne2, hshape2⟩ := coerceIntNoneKey_ok_inv o1 o3 "timeout_trigger" hs2
  have hT : oget opts "timeout" = oget o1 "timeout" := by
    rw [hopts, installPrefixedGenerator_oget o4 _ (by decide) (by decide),
      coerceFloat_ok_inv o3 o4 hf2 _ (by decide), hne2 _ (by decide)]
  have hTT : oget opts "timeout_trigger" = oget o3 "timeout_trigger" := by
    rw [hopts, installPrefixedGenerator_oget o4 _ (by decide) (by decide),
      coerceFloat_ok_inv o3 o4 hf2 _ (by decide)]
  have hraw : ∀ k, k ∈ configs_int_none →
      oget o2 k = oget (collectOptions settings) k := by
    intro k hk
    have hki : k ∉ configs_int := by fin_cases hk <;> decide
    have hkb : k ∉ configs_bool := by fin_cases hk <;> decide
    rw [intFold_ok_inv configs_int _ o2 hi k hki,
      coerceBools_oget_notin _ _ hkb]
  refine ⟨?_, ?_, ?_, ?_⟩
  · intro v hv
    rw [hT] at hv
    rcases hshape1 with hx | hx | ⟨n, hn0, hx⟩
    · rw [hx] at hv; cases hv
    · rw [hx] at hv
      exact Or.inl (by injection hv with hv2; exact hv2.symm)
    · rw [hx] at hv
      exact Or.inr ⟨n, hn0, by injection hv with hv2; exact hv2.symm⟩
  · intro v hv
    rw [hTT] at hv
    rcases hshape2 with hx | hx | ⟨n, hn0, hx⟩
    · rw [hx] at hv; cases hv
    · rw [hx] at hv
      exact Or.inl (by injection hv with hv2; exact hv2.symm)
    · rw [hx] at hv
      exact Or.inr ⟨n, hn0, by injection hv with hv2; exact hv2.symm⟩
  · intro s hval hz
    rw [hT]
    have hval2 : oget o2 "timeout" = some (OptVal.vstr s) := by
      rw [hraw "timeout" (by simp [configs_int_none])]
      exact hval
    exact coerceIntNoneKey_normalizes o2 o1 "timeout" s hval2 hz hs1
  · intro s hval hz
    rw [hTT]
    have hval2 : oget o1 "timeout_trigger" = some (OptVal.vstr s) := by
      rw [hne1 _ (by decide), hraw "timeout_trigger" (by simp [configs_int_none])]
      exact hval
    exact coerceIntNoneKey_normalizes o1 o3 "timeout_trigger" s hval2 hz hs2



/-- Claim C8, counterexample: with valid credentials, no
prefix/generator conflict, but `port = "abc"`, `_parse_settings`
neither raises a configuration error nor returns an options mapping —
it raises `ValueError` from the `int()` coercion, contradicting the
"precisely when / otherwise returns" claim. -/
theorem parse_settings_counterexample :
    _parse_settings
        [("redis.sessions.secret", "x"), ("redis.sessions.port", "abc")] =
      Except.error ParseError.valueError ∧
    credsMisconfigured (collectOptions
      [("redis.sessions.secret", "x"), ("redis.sessions.port", "abc")]) =
        false ∧
    prefixGeneratorConflict (collectOptions
      [("redis.sessions.secret", "x"), ("redis.sessions.port", "abc")]) =
        false := by
  decide

/-- Witness for C8 (amended) on a well-formed single-secret setting. -/
theorem parse_settings_config_error_iff_witness :
    ((∃ msg, _parse_settings [("redis.sessions.secret", "x")] =
        Except.error (ParseError.configurationError msg)) ↔
      (credsMisconfigured
          (collectOptions [("redis.sessions.secret", "x")]) = true ∨
        prefixGeneratorConflict
          (collectOptions [("redis.sessions.secret", "x")]) = true)) ∧
    ((credsMisconfigured
        (collectOptions [("redis.sessions.secret", "x")]) = false ∧
      prefixGeneratorConflict
        (collectOptions [("redis.sessions.secret", "x")]) = false) →
      ∃ opts, _parse_settings [("redis.sessions.secret", "x")] =
        Except.ok opts) :=
  parse_settings_config_error_iff [("redis.sessions.secret", "x")]
    (by
      have hcoll : collectOptions [("redis.sessions.secret", "x")] =
          [("secret", OptVal.vstr "x")] := by decide
      refine ⟨?_, ?_, ?_⟩
      · intro k hk v hv
        rw [hcoll] at hv
        fin_cases hk <;> simp [oget] at hv
      · intro k hk v hv
        rw [hcoll] at hv
        fin_cases hk <;> simp [oget] at hv
      · intro v hv
        rw [hcoll] at hv
        simp [oget] at hv)

/-- Witness for C10 on a setting with `timeout = "0"`. -/
theorem parse_settings_timeout_never_zero_witness :
    (∀ v, oget [("secret", OptVal.vstr "x"), ("timeout", OptVal.vnone)]
        "timeout" = some v →
      v = OptVal.vnone ∨ ∃ n, n ≠ 0 ∧ v = OptVal.vint n) ∧
    (∀ v, oget [("secret", OptVal.vstr "x"), ("timeout", OptVal.vnone)]
        "timeout_trigger" = some v →
      v = OptVal.vnone ∨ ∃ n, n ≠ 0 ∧ v = OptVal.vint n) ∧
    (∀ s, oget (collectOptions
        [("redis.sessions.secret", "x"), ("redis.sessions.timeout", "0")])
          "timeout" = some (OptVal.vstr s) →
      (s = "None" ∨ pyInt s = some 0) →
        oget [("secret", OptVal.vstr "x"), ("timeout", OptVal.vnone)]
          "timeout" = some OptVal.vnone) ∧
    (∀ s, oget (collectOptions
        [("redis.sessions.secret", "x"), ("redis.sessions.timeout", "0")])
          "timeout_trigger" = some (OptVal.vstr s) →
      (s = "None" ∨ pyInt s = some 0) →
        oget [("secret", OptVal.vstr "x"), ("timeout", OptVal.vnone)]
          "timeout_trigger" = some OptVal.vnone) :=
  parse_settings_timeout_never_zero
    [("redis.sessions.secret", "x"), ("redis.sessions.timeout", "0")]
    [("secret", OptVal.vstr "x"), ("timeout", OptVal.vnone)]
    (by decide)



/-- Witness for C3 at `timeout = 400`, `expires = 1000`,
`timeout_trigger = 60`, `now = 940` (the spec's boundary example). -/
theorem encode_expiry_recompute_policy_witness :
    ((some (60 : Int) = none ∨ some (60 : Int) = some 0) →
      (encode_session_payload ([] : ManagedDict) 0 (some 400) (some 1000)
          (some 60) true 940).map (fun p => p.x) =
        Except.ok (some (940 + 400))) ∧
    (∀ tg, some (60 : Int) = some tg → tg ≠ 0 →
      (encode_session_payload ([] : ManagedDict) 0 (some 400) (some 1000)
          (some 60) true 940).map (fun p => p.x) =
        Except.ok (if (940 : Int) ≥ 1000 - tg then some (940 + 400)
          else some 1000)) :=
  encode_expiry_recompute_policy [] 0 400 1000 (some 60) 940
    (by decide) (by decide)

/-- Witness for C4 (amended) at a concrete encode run. -/
theorem encode_x_presence_iff_witness :
    (Payload.mk ([] : ManagedDict) 1 1 (some 10) (some 100)).x.isSome =
        true ↔
      (true = true ∧ (pyTruthy (some (100 : Int)) = true ∨
        (pyTruthy (some (10 : Int)) = true ∧
          (pyTruthy (some (5 : Int)) = false ∨
            ∃ e tg, some (100 : Int) = some e ∧ some (5 : Int) = some tg ∧
              (0 : Int) ≥ e - tg)))) :=
  encode_x_presence_iff [] 1 (some 10) (some 100) (some 5) true 0
    ⟨[], 1, 1, some 10, some 100⟩ (by decide)

/-- Witness for C9 at `timeout = 300`, `timeout_trigger = 60`,
`expires = None`: the `TypeError` fires. -/
theorem encode_session_payload_type_error_witness :
    encode_session_payload ([] : ManagedDict) 1 (some 300) none (some 60)
      true 50 = Except.error () :=
  encode_session_payload_type_error [] 1 300 60 50 (by decide) (by decide)

/-- Witness for C7 at a concrete session history. -/
theorem session_expires_forward_invariant_witness :
    ((empty_session_payload (some 300) true 100).x = some (100 + 300)) ∧
    ∃ e2, (Payload.mk ([] : ManagedDict) 100 1 (some 300) (some 500)).x =
        some e2 ∧ (400 : Int) ≤ e2 ∧ 100 + 300 ≤ e2 ∧ e2 ≤ 200 + 300 :=
  session_expires_forward_invariant [] 100 300 150 200 400 none
    ⟨[], 100, 1, some 300, some 500⟩ (by decide) (by decide) (by decide)
    (by decide) (by decide) (by decide) (by decide)

/-- Witness for C5 on a free key with `timeout = 300` and the TTL flag
set. -/
theorem insert_session_ttl_write_witness :
    (∀ tval, some (300 : Int) = some tval → tval ≠ 0 → true = true →
      (_insert_session_id_if_unique (fun _ => (none : Option Nat))
          (some 300) "s" 7 true false).writes =
        [RedisWrite.setex "s" tval 7]) ∧
    ((pyTruthy (some (300 : Int)) = false ∨ true = false) →
      (_insert_session_id_if_unique (fun _ => (none : Option Nat))
          (some 300) "s" 7 true false).writes = [RedisWrite.set "s" 7]) :=
  insert_session_ttl_write (fun _ => none) (some 300) "s" 7 true false
    rfl rfl

/-- Witness for C1 on a one-iteration run against an empty store. -/
theorem create_unique_session_id_retries_and_commits_witness :
    (∀ j f2, ((none : Option Nat).isSome = true ∨ false = true) →
      ((_insert_session_id_if_unique (fun _ => (none : Option Nat))
          (some 300) "sid" 7 true false).result = none ∧
        create_unique_session_id (fun _ => "sid")
            (fun _ => fun _ => (none : Option Nat)) (some 300) 7 true
            (fun _ => false) (f2 + 1) j =
          create_unique_session_id (fun _ => "sid")
            (fun _ => fun _ => (none : Option Nat)) (some 300) 7 true
            (fun _ => false) f2 (j + 1))) ∧
    (∃ j, 0 ≤ j ∧ "sid" = "sid" ∧ (none : Option Nat) = none ∧
      false = false ∧
      (_insert_session_id_if_unique (fun _ => (none : Option Nat))
          (some 300) "sid" 7 true false).store "sid" = some 7) :=
  create_unique_session_id_retries_and_commits (fun _ => "sid")
    (fun _ => fun _ => none) (some 300) 7 true (fun _ => false) 1 0 "sid"
    (_insert_session_id_if_unique (fun _ => none) (some 300) "sid" 7 true
      false).store rfl

/-- Witness for C6 on 48 zero bytes. -/
theorem generate_session_id_entropy_witness :
    (_generate_session_id (List.replicate 48 0)).toList.length = 64 ∧
    (∀ ch ∈ (_generate_session_id (List.replicate 48 0)).toList,
      ch ∈ b64urlAlphabet) ∧
    ('=' ∉ (_generate_session_id (List.replicate 48 0)).toList) ∧
    (∀ bytes2, bytes2.length = 48 → (∀ b ∈ bytes2, b < 256) →
      _generate_session_id (List.replicate 48 0) =
        _generate_session_id bytes2 → List.replicate 48 0 = bytes2) :=
  generate_session_id_entropy (List.replicate 48 0) (by decide) (by decide)

end PyramidSessionRedis
